import Mathlib

/-!
Shallow embedding of the `s3-object-lambda/lambda` image-processing core
(`validators.py`, `quality_optimizer.py`, `signature_validator.py`, `index.py`).

Conventions of the embedding:
* Python `str` is modelled by Lean `String` at component boundaries and by
  `List Char` (`Chars`) inside the query-string parsing machinery; characters
  stand for bytes (the code paths under verification only ever see ASCII, so
  UTF-8 byte-level effects of `unquote` are out of modelled scope).
* Python `int` is `Int`; Python `float` is modelled by exact rationals `ℚ`
  (the validator only compares against integer bounds).
* Raised exceptions are `Except` errors; `ImageProcessingError(message, status)`
  is `ImgError`.  PIL calls, HMAC, secret fetch and response writes are
  abstracted as explicit function parameters so the control flow around them
  is embedded exactly.
-/

set_option autoImplicit false

deriving instance DecidableEq for Except

abbrev Chars := List Char

abbrev Bytes := List Nat

/-- `ImageProcessingError` from `models.py`: a message plus an HTTP status code. -/
structure ImgError where
  msg : String
  status : Nat
deriving DecidableEq, Repr

/-- An exception raised by a collaborator call (PIL, urllib, boto3, ...).
Only its presence matters to the embedded control flow. -/
structure PyErr where
  info : String
deriving DecidableEq, Repr

/-! ### Character / string helpers shared by the parsers -/

def isAsciiDigit (c : Char) : Bool := '0' ≤ c && c ≤ '9'

def isHexDigitChar (c : Char) : Bool :=
  ('0' ≤ c && c ≤ '9') || ('a' ≤ c && c ≤ 'f') || ('A' ≤ c && c ≤ 'F')

def hexVal (c : Char) : Nat :=
  if '0' ≤ c && c ≤ '9' then c.toNat - '0'.toNat
  else if 'a' ≤ c && c ≤ 'f' then c.toNat - 'a'.toNat + 10
  else c.toNat - 'A'.toNat + 10

def asciiLower (s : String) : String := String.mk (s.toList.map Char.toLower)

def asciiUpper (s : String) : String := String.mk (s.toList.map Char.toUpper)

def isPyWs (c : Char) : Bool := c = ' ' || c = '\t' || c = '\n' || c = '\r'

def stripWs (l : Chars) : Chars := (l.dropWhile isPyWs).reverse.dropWhile isPyWs |>.reverse

def digitsToNat (l : Chars) : Nat := l.foldl (fun n c => 10 * n + (c.toNat - '0'.toNat)) 0

/-- Python `int(s)`: optional surrounding whitespace, optional sign, decimal
digits.  (Digit-group underscores, which Python also allows, are not modelled.)
On failure the `ValueError` message is returned; Python additionally quotes the
repr of the offending string, which we elide. -/
def pyIntParse (s : String) : Except String Int :=
  let cs := stripWs s.toList
  let failMsg : String := "invalid literal for int() with base 10: " ++ s
  let signAndDigits : Int × Chars :=
    match cs with
    | '+' :: rest => (1, rest)
    | '-' :: rest => (-1, rest)
    | rest => (1, rest)
  if signAndDigits.2 ≠ [] ∧ signAndDigits.2.all isAsciiDigit then
    .ok (signAndDigits.1 * (digitsToNat signAndDigits.2 : Int))
  else .error failMsg

def readSign (l : Chars) : Int × Chars :=
  match l with
  | '+' :: rest => (1, rest)
  | '-' :: rest => (-1, rest)
  | rest => (1, rest)

/-- The rational denoted by integer digits `ip`, fractional digits `fp` and a
decimal exponent. -/
def ratOfParts (ip fp : Chars) (exp : Int) : ℚ :=
  ((digitsToNat (ip ++ fp) : ℚ) / ((10 : ℚ) ^ fp.length)) * ((10 : ℚ) ^ exp)

/-- Python `float(s)`, restricted to finite decimal literals
`[ws] [sign] (digits [. digits] | . digits) [(e|E) [sign] digits] [ws]`.
(`inf`/`nan` and digit underscores are not modelled; values are exact
rationals rather than IEEE doubles — the validator only compares against the
integer bounds 0 and 100.)  Python quotes the offending string in the
`ValueError` message; the quoting is elided. -/
def pyFloatParse (s : String) : Except String ℚ :=
  let cs := stripWs s.toList
  let failMsg : String := "could not convert string to float: " ++ s
  let sr := readSign cs
  let ip := sr.2.takeWhile isAsciiDigit
  let rest1 := sr.2.drop ip.length
  let fpRest : Chars × Chars :=
    match rest1 with
    | '.' :: r => (r.takeWhile isAsciiDigit, r.drop (r.takeWhile isAsciiDigit).length)
    | _ => ([], rest1)
  if ip = [] ∧ fpRest.1 = [] then .error failMsg
  else
    match fpRest.2 with
    | [] => .ok ((sr.1 : ℚ) * ratOfParts ip fpRest.1 0)
    | e :: r3 =>
      if e = 'e' ∨ e = 'E' then
        let er := readSign r3
        let ed := er.2.takeWhile isAsciiDigit
        if ed = [] ∨ er.2.drop ed.length ≠ [] then .error failMsg
        else .ok ((sr.1 : ℚ) * ratOfParts ip fpRest.1 (er.1 * (digitsToNat ed : Int)))
      else .error failMsg

/-! ### quality_optimizer.py -/

/-- `QualityProfile` enumeration. -/
inductive QualityProfile where
  | high
  | standard
  | optimized
deriving DecidableEq, Repr

/-- `QualityOptimizer.QUALITY_SETTINGS`: per-profile quality table, as the
Python `dict.get` (absent formats yield `none`). -/
def qualitySettings (p : QualityProfile) (fmt : String) : Option Int :=
  match p with
  | .high =>
    if fmt = "jpeg" then some 90 else if fmt = "webp" then some 85
    else if fmt = "avif" then some 70 else none
  | .standard =>
    if fmt = "jpeg" then some 85 else if fmt = "webp" then some 80
    else if fmt = "avif" then some 60 else none
  | .optimized =>
    if fmt = "jpeg" then some 75 else if fmt = "webp" then some 70
    else if fmt = "avif" then some 50 else none

/-- `QualityOptimizer.PNG_COMPRESSION_LEVELS`. -/
def pngCompressionLevels (p : QualityProfile) : Int :=
  match p with
  | .high => 6
  | .standard => 6
  | .optimized => 9

/-- `QualityOptimizer._normalize_format`. -/
def normalizeFormat (f : String) : String :=
  let fl := asciiLower f
  if fl = "jpg" ∨ fl = "jpeg" then "jpeg" else fl

/-- `QualityOptimizer._validate_quality`: clamp to `[10, 100]`. -/
def validateQuality (q : Int) : Int := max 10 (min 100 q)

/-- `QualityOptimizer._apply_dynamic_adjustment`. -/
def applyDynamicAdjustment (baseQuality fileSize : Int) (fmt : String) : Int :=
  if 2 * 1024 * 1024 < fileSize then
    if fmt = "jpeg" then max (baseQuality - 5) 70
    else if fmt = "webp" then max (baseQuality - 5) 65
    else if fmt = "avif" then max (baseQuality - 5) 45
    else baseQuality
  else if fileSize < 50 * 1024 then
    if fmt = "jpeg" then min (baseQuality + 5) 95
    else if fmt = "webp" then min (baseQuality + 5) 90
    else if fmt = "avif" then min (baseQuality + 5) 75
    else baseQuality
  else baseQuality

/-- `QualityOptimizer.get_optimal_quality`.  `defaultProfile` is the
constructor argument `default_profile` (`STANDARD` in the deployed instance). -/
def getOptimalQuality (defaultProfile : QualityProfile) (imageFormat : String)
    (qualityProfile : Option QualityProfile) (customQuality : Option Int)
    (fileSizeHint : Option Int) : Int :=
  match customQuality with
  | some q => validateQuality q
  | none =>
    let fmt := normalizeFormat imageFormat
    let profile := qualityProfile.getD defaultProfile
    if fmt = "png" then pngCompressionLevels profile
    else
      let base := (qualitySettings profile fmt).getD 85
      let adjusted :=
        match fileSizeHint with
        | some size => applyDynamicAdjustment base size fmt
        | none => base
      validateQuality adjusted

/-- Transformation parameters validated by `validate_transform_params`
(`TransformParams` in `models.py`); `none` means the query key was absent. -/
structure TransformParams where
  width : Option Int := none
  height : Option Int := none
  fit : Option String := none
  format : Option String := none
  quality : Option Int := none
  rotate : Option Int := none
  flip : Option Bool := none
  flop : Option Bool := none
  grayscale : Option Bool := none
  blur : Option ℚ := none
  smartCrop : Option Bool := none
deriving DecidableEq, Repr

/-- `QualityOptimizer.determine_quality_profile_from_params`. -/
def determineQualityProfileFromParams (defaultProfile : QualityProfile)
    (params : TransformParams) : QualityProfile :=
  if 90 ≤ params.quality.getD 0 then .high
  else
    let width := params.width.getD 0
    let height := params.height.getD 0
    if (width ≠ 0 ∧ width ≤ 300) ∨ (height ≠ 0 ∧ height ≤ 300) then .optimized
    else if (width ≠ 0 ∧ 1200 ≤ width) ∨ (height ≠ 0 ∧ 1200 ≤ height) then .standard
    else defaultProfile

/-! ### validators.py — query parsing and parameter validation -/

/-- The raw parameter dictionary `dict[str, str]`.  Keys are unique by
construction (`dictInsert` replaces in place, as a Python dict does). -/
abbrev ParamDict := List (String × String)

def dictGet (d : ParamDict) (k : String) : Option String :=
  (d.find? (fun kv => kv.1 == k)).map (·.2)

def dictContains (d : ParamDict) (k : String) : Bool := (dictGet d k).isSome

/-- Python `d[k] = v`: replace the value of an existing key in place,
otherwise append the new binding at the end. -/
def dictInsert : ParamDict → String → String → ParamDict
  | [], k, v => [(k, v)]
  | kv :: rest, k, v =>
    if kv.1 == k then (kv.1, v) :: rest else kv :: dictInsert rest k v

/-- Python `str.split(sep)` for a single-character separator (never empty,
keeps empty fields). -/
def splitOnAmp : Chars → List Chars
  | [] => [[]]
  | c :: rest =>
    match splitOnAmp rest with
    | [] => [[]]
    | t :: ts => if c = '&' then [] :: t :: ts else (c :: t) :: ts

/-- Python `s.split("=", 1)` when `"=" in s`: the part before the first `'='`
and the part after it; `none` when there is no `'='`. -/
def splitFirstEq : Chars → Option (Chars × Chars)
  | [] => none
  | c :: rest =>
    if c = '=' then some ([], rest)
    else
      match splitFirstEq rest with
      | none => none
      | some kv => some (c :: kv.1, kv.2)

/-- `urllib.parse.unquote`, byte-for-byte: a `%XY` with two hex digits becomes
the character with code `16*X+Y`; invalid escapes are kept verbatim.
(Multi-byte UTF-8 escape sequences decode to one char per byte here.) -/
def unquoteChars : Chars → Chars
  | [] => []
  | '%' :: h :: l :: rest2 =>
    if isHexDigitChar h ∧ isHexDigitChar l then
      Char.ofNat (16 * hexVal h + hexVal l) :: unquoteChars rest2
    else '%' :: unquoteChars (h :: l :: rest2)
  | '%' :: rest => '%' :: unquoteChars rest
  | c :: rest => c :: unquoteChars rest

/-- `RequestValidator.parse_query_parameters`: split on `'&'`, keep only
tokens containing `'='`, split each at the first `'='`, percent-decode the
value (not the key), later duplicate keys overwriting earlier ones. -/
def parseQueryParameters (queryString : String) : ParamDict :=
  if queryString = "" then []
  else
    (splitOnAmp queryString.toList).foldl
      (fun params tok =>
        match splitFirstEq tok with
        | some kv => dictInsert params (String.mk kv.1) (String.mk (unquoteChars kv.2))
        | none => params)
      []

/-- A `ValueError` raised by `int()`/`float()` inside the `try` block of
`validate_transform_params`, or an `ImageProcessingError` raised explicitly;
the function's trailing `except ValueError` handler rewraps the former. -/
inductive VErr where
  | valueError (msg : String)
  | imgError (e : ImgError)
deriving DecidableEq

def truthyStr (s : String) : Bool := s == "true" || s == "1" || s == "yes"

/-- The `w` block of `validate_transform_params`. -/
def checkWidth (p : ParamDict) : Except VErr (Option Int) :=
  match dictGet p "w" with
  | none => .ok none
  | some s =>
    match pyIntParse s with
    | .error m => .error (.valueError m)
    | .ok width =>
      if width ≤ 0 then .error (.imgError ⟨"Width must be positive", 400⟩)
      else if 2000 < width then .error (.imgError ⟨"Width cannot exceed 2000px", 400⟩)
      else .ok (some width)

/-- The `h` block of `validate_transform_params`. -/
def checkHeight (p : ParamDict) : Except VErr (Option Int) :=
  match dictGet p "h" with
  | none => .ok none
  | some s =>
    match pyIntParse s with
    | .error m => .error (.valueError m)
    | .ok height =>
      if height ≤ 0 then .error (.imgError ⟨"Height must be positive", 400⟩)
      else if 2000 < height then .error (.imgError ⟨"Height cannot exceed 2000px", 400⟩)
      else .ok (some height)

/-- The `q` block of `validate_transform_params`. -/
def checkQuality (p : ParamDict) : Except VErr (Option Int) :=
  match dictGet p "q" with
  | none => .ok none
  | some s =>
    match pyIntParse s with
    | .error m => .error (.valueError m)
    | .ok quality =>
      if quality < 10 ∨ 100 < quality then
        .error (.imgError ⟨"Quality must be between 10 and 100", 400⟩)
      else .ok (some quality)

def supportedFormats : List String := ["jpeg", "jpg", "png", "webp", "avif"]

/-- The `f` block of `validate_transform_params`.  (Python joins the set of
supported formats in hash order into the message; a fixed order is used here
and the quoting of the offending value is elided.) -/
def checkFormat (p : ParamDict) : Except VErr (Option String) :=
  match dictGet p "f" with
  | none => .ok none
  | some s =>
    let formatValue := asciiLower s
    if supportedFormats.contains formatValue then .ok (some formatValue)
    else .error (.imgError
      ⟨"Unsupported format " ++ formatValue ++ ". Supported formats: jpeg, jpg, png, webp, avif", 400⟩)

/-- The `r` block of `validate_transform_params`. -/
def checkRotation (p : ParamDict) : Except VErr (Option Int) :=
  match dictGet p "r" with
  | none => .ok none
  | some s =>
    match pyIntParse s with
    | .error m => .error (.valueError m)
    | .ok rotation =>
      if ([0, 90, 180, 270] : List Int).contains rotation then .ok (some rotation)
      else .error (.imgError
        ⟨"Invalid rotation " ++ toString rotation ++ ". Valid values: 0, 90, 180, 270", 400⟩)

def validFitValues : List String := ["contain", "cover", "fill", "inside", "outside"]

/-- The `fit` block of `validate_transform_params`. -/
def checkFit (p : ParamDict) : Except VErr (Option String) :=
  match dictGet p "fit" with
  | none => .ok none
  | some s =>
    let fitValue := asciiLower s
    if validFitValues.contains fitValue then .ok (some fitValue)
    else .error (.imgError
      ⟨"Invalid fit value " ++ fitValue ++ ". Valid values: contain, cover, fill, inside, outside", 400⟩)

/-- The `flip`/`flop` blocks: key present ⇒ flag is whether the lower-cased
value is one of `true`, `1`, `yes`.  Never fails. -/
def checkBoolFlag (p : ParamDict) (key : String) : Option Bool :=
  (dictGet p key).map (fun s => truthyStr (asciiLower s))

/-- The `grayscale`/`greyscale` block: presence alone sets the flag. -/
def checkGrayscale (p : ParamDict) : Option Bool :=
  if dictContains p "grayscale" || dictContains p "greyscale" then some true else none

/-- The `blur` block of `validate_transform_params`. -/
def checkBlur (p : ParamDict) : Except VErr (Option ℚ) :=
  match dictGet p "blur" with
  | none => .ok none
  | some s =>
    match pyFloatParse s with
    | .error m => .error (.valueError m)
    | .ok blur =>
      if blur < 0 ∨ 100 < blur then
        .error (.imgError ⟨"Blur value must be between 0 and 100", 400⟩)
      else .ok (some blur)

/-- The `smart`/`smartcrop` block. -/
def checkSmartCrop (p : ParamDict) : Option Bool :=
  if dictContains p "smart" || dictContains p "smartcrop" then
    some (truthyStr (asciiLower ((dictGet p "smart").getD ((dictGet p "smartcrop").getD ""))))
  else none

/-- The body of the `try` block of `validate_transform_params`: the per-key
blocks in source order (`w`, `h`, `q`, `f`, `r`, `fit`, `flip`, `flop`,
`grayscale`/`greyscale`, `blur`, `smart`/`smartcrop`). -/
def validateBody (p : ParamDict) : Except VErr TransformParams := do
  let width ← checkWidth p
  let height ← checkHeight p
  let quality ← checkQuality p
  let format ← checkFormat p
  let rotate ← checkRotation p
  let fit ← checkFit p
  let flip := checkBoolFlag p "flip"
  let flop := checkBoolFlag p "flop"
  let grayscale := checkGrayscale p
  let blur ← checkBlur p
  let smartCrop := checkSmartCrop p
  pure { width, height, fit, format, quality, rotate, flip, flop, grayscale, blur, smartCrop }

/-- `RequestValidator.validate_transform_params`: the `try` body with the
trailing `except ValueError` handler turning a parse failure into
`ImageProcessingError(f"Invalid parameter value: {e}", 400)`. -/
def validateTransformParams (p : ParamDict) : Except ImgError TransformParams :=
  match validateBody p with
  | .ok r => .ok r
  | .error (.valueError m) => .error ⟨"Invalid parameter value: " ++ m, 400⟩
  | .error (.imgError e) => .error e

/-! ### signature_validator.py — parse_qs and validate_signature -/

/-- `name_value.replace('+', ' ')` as applied by `urllib.parse.parse_qsl`. -/
def plusToSpace (l : Chars) : Chars := l.map (fun c => if c = '+' then ' ' else c)

/-- One field of `urllib.parse.parse_qsl` with default options: a token
without `'='` (this covers the empty token) is skipped, a token whose value is
empty is skipped, and both name and value get `'+' → ' '` then percent
decoding. -/
def qslStep (tok : Chars) : Option (Chars × Chars) :=
  match splitFirstEq tok with
  | none => none
  | some kv =>
    if kv.2 = [] then none
    else some (unquoteChars (plusToSpace kv.1), unquoteChars (plusToSpace kv.2))

/-- `urllib.parse.parse_qsl(qs)` with default options. -/
def parseQsl (qs : Chars) : List (Chars × Chars) :=
  (splitOnAmp qs).filterMap qslStep

/-- Append a parsed field to the `parse_qs` dictionary: values accumulate on
the first entry carrying the key, new keys go to the end (Python dict
insertion order). -/
def addQsEntry : List (Chars × List Chars) → Chars → Chars → List (Chars × List Chars)
  | [], k, v => [(k, [v])]
  | kv :: rest, k, v =>
    if kv.1 == k then (kv.1, kv.2 ++ [v]) :: rest else kv :: addQsEntry rest k v

/-- `urllib.parse.parse_qs(qs)`: fields grouped by key, keys in first
occurrence order, each key's values in occurrence order. -/
def parseQs (qs : Chars) : List (Chars × List Chars) :=
  (parseQsl qs).foldl (fun acc kv => addQsEntry acc kv.1 kv.2) []

def qsGet (qp : List (Chars × List Chars)) (k : Chars) : Option (List Chars) :=
  (qp.find? (fun kv => kv.1 == k)).map (·.2)

def sigKey : Chars := "signature".toList

def expKey : Chars := "expires".toList

/-- `"&".join(...)` over a list of already-formatted fields. -/
def joinAmp : List Chars → Chars
  | [] => []
  | [x] => x
  | x :: xs => x ++ '&' :: joinAmp xs

/-- The `query_without_signature` comprehension of `validate_signature`:
every `parse_qs` entry except `signature`, rendered as `key=value[0]`, joined
with `'&'`.  (`parse_qs` never produces an empty value list, so `value[0]` is
total; `headD []` stands for it.) -/
def queryWithoutSignature (qs : Chars) : Chars :=
  joinAmp (((parseQs qs).filter (fun kv => !(kv.1 == sigKey))).map
    (fun kv => kv.1 ++ '=' :: kv.2.headD []))

/-- `string_to_sign = f"{parsed_url.path}?{query_without_signature}"`. -/
def stringToSign (path qs : Chars) : Chars := path ++ '?' :: queryWithoutSignature qs

/-- The collaborators of `validate_signature`: `_get_secret()` (which can
only fail with an `ImageProcessingError`, status 500) and the HMAC-SHA256 hex
digest, abstracted as a function of the secret and the message. -/
structure SigEnv where
  getSecret : Except ImgError String
  hmacHex : String → Chars → Chars

/-- Python truthiness of `query_params.get(key, [None])[0]`: false for an
absent key and for an empty string. -/
def optCharsTruthy : Option Chars → Bool
  | none => false
  | some [] => false
  | some (_ :: _) => true

/-- `SignatureValidator.validate_signature`, from the point where the URL has
been split into `parsed_url.path` and `parsed_url.query` (the signature-enabled
short-circuit and `urlparse` itself sit outside the embedded core;
`currentTime` is `int(time.time())`).  The expiry comparison happens before
the canonical string is built or the secret fetched; an `ImageProcessingError`
raised inside the inner `try` is not a `ValueError`, so it propagates past the
`except ValueError` handler. -/
def validateSignature (env : SigEnv) (currentTime : Int) (path query : Chars) :
    Except ImgError Unit :=
  let queryParams := parseQs query
  let signature := (qsGet queryParams sigKey).bind List.head?
  let expires := (qsGet queryParams expKey).bind List.head?
  if !optCharsTruthy signature then .error ⟨"Missing signature parameter", 403⟩
  else if !optCharsTruthy expires then .error ⟨"Missing expires parameter", 403⟩
  else
    match pyIntParse (String.mk (expires.getD [])) with
    | .error _ => .error ⟨"Invalid expires parameter", 400⟩
    | .ok expiresTimestamp =>
      if expiresTimestamp < currentTime then .error ⟨"Signature has expired", 403⟩
      else
        match env.getSecret with
        | .error e => .error e
        | .ok secret =>
          let expectedSignature := env.hmacHex secret (stringToSign path query)
          if !(signature.getD [] == expectedSignature) then .error ⟨"Invalid signature", 403⟩
          else .ok ()

/-- Modelled from the words of the C3 claim (not from the source): the key of
a raw query token, i.e. the part before the first `'='` (the whole token if it
has no `'='`). -/
def tokenKey (tok : Chars) : Chars := ((splitFirstEq tok).map (·.1)).getD tok

/-- Modelled from the words of the C3 claim (not from the source): the canonical
string as `path + "?" + (all query tokens except the signature parameter,
re-joined with "&" in original order, byte-for-byte as they appear in the
URL)`. -/
def specStringToSign (path qs : Chars) : Chars :=
  path ++ '?' :: joinAmp ((splitOnAmp qs).filter (fun tok => !(tokenKey tok == sigKey)))

/-- The raw values of a query key, in occurrence order: for every token that
contains `'='` and whose key part equals `k`, the part after the first `'='`,
undecoded.  (Spec-side helper used to state first/last occurrence claims.) -/
def rawValues (qs : Chars) (k : Chars) : List Chars :=
  (((splitOnAmp qs).filterMap splitFirstEq).filter (fun kv => kv.1 == k)).map (·.2)

/-! ### index.py — the transform pipeline and the error handler -/

/-- Python truthiness of an optional int (`params.get(...)`): `None` and `0`
are falsy. -/
def optIntTruthy : Option Int → Bool
  | none => false
  | some n => n != 0

/-- Python truthiness of an optional float. -/
def optRatTruthy : Option ℚ → Bool
  | none => false
  | some q => q != 0

/-- The PIL operations used by `process_image`, abstracted over an image type.
Each call may raise (`Except`), which is what the pipeline's blanket
`except Exception` absorbs. -/
structure PILPrims (Img : Type) where
  /-- `Image.open(io.BytesIO(image_bytes))` -/
  openImage : Bytes → Except PyErr Img
  /-- the `image.mode` attribute -/
  mode : Img → String
  /-- the `image.size` attribute (width, height) -/
  size : Img → Int × Int
  /-- lines 223-230: paste onto a white RGB background (with the `P → RGBA`
  pre-conversion), used for JPEG output of transparent sources -/
  compositeOnWhite : Img → Except PyErr Img
  /-- `ImageOps.fit(image, (w, h), LANCZOS)` -/
  fitOp : Img → Int × Int → Except PyErr Img
  /-- `image.resize((w, h), LANCZOS)` -/
  resizeOp : Img → Int × Int → Except PyErr Img
  /-- `image.thumbnail((w, h), LANCZOS)` (in-place in PIL; value-passing here) -/
  thumbnailOp : Img → Int × Int → Except PyErr Img
  /-- `image.rotate(angle, expand=True)` -/
  rotateOp : Img → Int → Except PyErr Img
  /-- `image.transpose(FLIP_TOP_BOTTOM)` -/
  transposeTopBottom : Img → Except PyErr Img
  /-- `image.transpose(FLIP_LEFT_RIGHT)` -/
  transposeLeftRight : Img → Except PyErr Img
  /-- `ImageOps.grayscale(image)` -/
  grayscaleOp : Img → Except PyErr Img
  /-- `image.convert("RGB")` -/
  convertRGB : Img → Except PyErr Img
  /-- `image.filter(ImageFilter.GaussianBlur(radius))` -/
  gaussianBlur : Img → ℚ → Except PyErr Img
  /-- `image.save(buffer, **save_args)` followed by `buffer.getvalue()` -/
  save : Img → String → Bool → Option Int → Option Int → Except PyErr Bytes

/-- Python `not transform_params` on the validated dict: true iff no key was
set. -/
def TransformParams.isEmpty (p : TransformParams) : Bool :=
  p.width.isNone && p.height.isNone && p.fit.isNone && p.format.isNone &&
  p.quality.isNone && p.rotate.isNone && p.flip.isNone && p.flop.isNone &&
  p.grayscale.isNone && p.blur.isNone && p.smartCrop.isNone

/-- The save arguments computed at index.py lines 236-251. -/
structure SaveArgs where
  format : String
  optimize : Bool
  quality : Option Int
  compressLevel : Option Int
deriving DecidableEq, Repr

/-- `output_format = transform_params.get("format", "jpeg").upper()`, with the
`JPG → JPEG` rewrite. -/
def outputFormatOf (params : TransformParams) : String :=
  let f := asciiUpper (params.format.getD "jpeg")
  if f = "JPG" then "JPEG" else f

/-- index.py lines 236-251: the encoder arguments.  Quality is
`transform_params.get("quality", 85)` and is attached only for JPEG/WEBP;
PNG always gets `compress_level = 6`; any other format (including AVIF) gets
neither. -/
def computeSaveArgs (params : TransformParams) : SaveArgs :=
  let outputFormat := outputFormatOf params
  let quality := params.quality.getD 85
  if outputFormat = "JPEG" ∨ outputFormat = "WEBP" then
    { format := outputFormat, optimize := true, quality := some quality, compressLevel := none }
  else if outputFormat = "PNG" then
    { format := outputFormat, optimize := true, quality := none, compressLevel := some 6 }
  else
    { format := outputFormat, optimize := true, quality := none, compressLevel := none }

/-- `int()` truncation toward zero of an exact rational (Python float
arithmetic is modelled exactly). -/
def pyTrunc (q : ℚ) : Int := if 0 ≤ q then ⌊q⌋ else ⌈q⌉

def zeroDivisionError : PyErr := ⟨"ZeroDivisionError: division by zero"⟩

/-- `_apply_resize`: derive a missing axis from the aspect ratio, then
dispatch on `fit` (`cover` / `fill` / default `contain`).  A zero-width or
zero-height source hit by the aspect-ratio division raises, like Python. -/
def applyResize {Img : Type} (prims : PILPrims Img) (image : Img)
    (params : TransformParams) : Except PyErr Img := do
  let originalWidth := (prims.size image).1
  let originalHeight := (prims.size image).2
  let targetWidth := params.width
  let targetHeight := params.height
  if !(optIntTruthy targetWidth || optIntTruthy targetHeight) then
    pure image
  else do
    let derived : Option Int × Option Int ←
      if optIntTruthy targetWidth ∧ !optIntTruthy targetHeight then
        if originalWidth = 0 then Except.error zeroDivisionError
        else pure (targetWidth,
          some (pyTrunc ((targetWidth.getD 0 : ℚ) * ((originalHeight : ℚ) / (originalWidth : ℚ)))))
      else if optIntTruthy targetHeight ∧ !optIntTruthy targetWidth then
        if originalHeight = 0 then Except.error zeroDivisionError
        else pure (some (pyTrunc ((targetHeight.getD 0 : ℚ) * ((originalWidth : ℚ) / (originalHeight : ℚ)))),
          targetHeight)
      else pure (targetWidth, targetHeight)
    if optIntTruthy derived.1 ∧ optIntTruthy derived.2 then
      let dims := (derived.1.getD 0, derived.2.getD 0)
      match params.fit.getD "contain" with
      | "cover" => prims.fitOp image dims
      | "fill" => prims.resizeOp image dims
      | _ => prims.thumbnailOp image dims
    else pure image

/-- `_apply_rotation_and_flips`: rotation (skipped for `rotate=0` by Python
truthiness; PIL rotates counter-clockwise, hence the negation), then `flip`,
then `flop`. -/
def applyRotationAndFlips {Img : Type} (prims : PILPrims Img) (image : Img)
    (params : TransformParams) : Except PyErr Img := do
  let image ← if optIntTruthy params.rotate then
      prims.rotateOp image (-(params.rotate.getD 0))
    else pure image
  let image ← if params.flip.getD false then prims.transposeTopBottom image else pure image
  let image ← if params.flop.getD false then prims.transposeLeftRight image else pure image
  pure image

/-- `_apply_color_effects`: grayscale, re-promoted to RGB when the output
format needs color and the grayscale result has mode `"L"`. -/
def applyColorEffects {Img : Type} (prims : PILPrims Img) (image : Img)
    (params : TransformParams) : Except PyErr Img := do
  if params.grayscale.getD false then do
    let image ← prims.grayscaleOp image
    let fmt := asciiLower (params.format.getD "jpeg")
    if (fmt = "jpeg" ∨ fmt = "jpg" ∨ fmt = "webp") ∧ prims.mode image = "L" then
      prims.convertRGB image
    else pure image
  else pure image

/-- `_apply_filters`: Gaussian blur (skipped for `blur=0` by Python
truthiness).  The smart-crop branch only logs — it is a no-op regardless of
the configuration flag. -/
def applyFilters {Img : Type} (prims : PILPrims Img) (image : Img)
    (params : TransformParams) : Except PyErr Img := do
  let image ← if optRatTruthy params.blur then
      prims.gaussianBlur image (params.blur.getD 0)
    else pure image
  pure image

/-- `apply_transformations`: resize, rotation/flips, color effects, filters,
in that order. -/
def applyTransformations {Img : Type} (prims : PILPrims Img) (image : Img)
    (params : TransformParams) : Except PyErr Img := do
  let image ← applyResize prims image params
  let image ← applyRotationAndFlips prims image params
  let image ← applyColorEffects prims image params
  let image ← applyFilters prims image params
  pure image

/-- The body of the `try` block of `process_image`: decode, normalize color
for JPEG output of transparent sources, transform, encode. -/
def processImageBody {Img : Type} (prims : PILPrims Img) (imageBytes : Bytes)
    (params : TransformParams) : Except PyErr Bytes := do
  let image ← prims.openImage imageBytes
  let jpegTarget :=
    let f := asciiLower (params.format.getD "jpeg")
    f = "jpeg" ∨ f = "jpg"
  let image ←
    if (prims.mode image = "RGBA" ∨ prims.mode image = "LA" ∨ prims.mode image = "P")
        ∧ jpegTarget then
      prims.compositeOnWhite image
    else pure image
  let image ← applyTransformations prims image params
  let args := computeSaveArgs params
  let processedBytes ← prims.save image args.format args.optimize args.quality args.compressLevel
  pure processedBytes

/-- `process_image`: empty parameter dict short-circuits to the original
bytes; otherwise the `try` body runs and any exception is absorbed, returning
the original bytes (`except Exception: return image_bytes`). -/
def processImage {Img : Type} (prims : PILPrims Img) (imageBytes : Bytes)
    (params : TransformParams) : Bytes :=
  if params.isEmpty then imageBytes
  else
    match processImageBody prims imageBytes params with
    | .ok processedBytes => processedBytes
    | .error _ => imageBytes

/-- A response delivered through `write_get_object_response`.  A status code
of 200 is the boto3 default (the wrapper only forwards a `StatusCode` when it
differs from 200). -/
structure Response where
  body : Bytes
  contentType : String
  statusCode : Nat
deriving DecidableEq, Repr

/-- `str.encode("utf-8")` restricted to the ASCII range (codepoints are used
as byte values). -/
def strToBytes (s : String) : Bytes := s.toList.map Char.toNat

/-- `json.dumps({"error": str(error)})` for messages without characters that
need JSON escaping. -/
def jsonErrorBody (msg : String) : String :=
  "\x7b\"error\": \"" ++ msg ++ "\"\x7d"

/-- The last-resort error response of `handle_error`: JSON body, the original
error's status code. -/
def errorJsonResponse (e : ImgError) : Response :=
  ⟨strToBytes (jsonErrorBody e.msg), "application/json", e.status⟩

/-- The collaborators of `handle_error`:
`config.is_default_fallback_image_enabled`, `get_fallback_image()` (total:
it catches its own exceptions and returns `None`, and also returns `None`
when no bucket/key is configured), the original-image fetch
`urllib.request.urlopen(s3_url).read()`, and whether a given
`write_get_object_response` call succeeds. -/
structure ErrorEnv where
  fallbackEnabled : Bool
  getFallbackImage : Option Bytes
  fetchOriginal : Except PyErr Bytes
  writeOk : Response → Bool

/-- `handle_error`: the ≥500-with-fallback-image branch, then the <500
original-image branch, then the JSON error response; each branch's own
failure is swallowed and control falls through.  The result is the response
that was successfully written (`none` when even the last write failed —
the outer `except` swallows that too). -/
def handleError (env : ErrorEnv) (e : ImgError) : Option Response :=
  let errorResp := errorJsonResponse e
  let lastResort : Option Response := if env.writeOk errorResp then some errorResp else none
  let originalBranch : Option Response :=
    if e.status < 500 then
      match env.fetchOriginal with
      | .ok originalBytes =>
        let r : Response := ⟨originalBytes, "application/octet-stream", 200⟩
        if env.writeOk r then some r else lastResort
      | .error _ => lastResort
    else lastResort
  if env.fallbackEnabled && 500 ≤ e.status then
    match env.getFallbackImage with
    | some fallbackBytes =>
      let r : Response := ⟨fallbackBytes, "image/jpeg", 200⟩
      if env.writeOk r then some r else originalBranch
    | none => originalBranch
  else originalBranch

/-- `get_content_type`. -/
def getContentType (formatParam : String) : String :=
  let f := asciiLower formatParam
  if f = "jpeg" then "image/jpeg"
  else if f = "jpg" then "image/jpeg"
  else if f = "png" then "image/png"
  else if f = "webp" then "image/webp"
  else if f = "avif" then "image/avif"
  else "image/jpeg"

/-! ### Auxiliary definitions used by the statements and witnesses -/

/-- The per-format quality floor named by the spec for the large-file
adjustment (jpeg 70, webp 65, avif 45). -/
def perFormatFloor (fmt : String) : Int :=
  if fmt = "jpeg" then 70 else if fmt = "webp" then 65 else 45

/-- The per-format quality ceiling named by the spec for the small-file
adjustment (jpeg 95, webp 90, avif 75). -/
def perFormatCeil (fmt : String) : Int :=
  if fmt = "jpeg" then 95 else if fmt = "webp" then 90 else 75

/-- A PIL interpretation in which every operation succeeds and encoding
returns the fixed byte string `[1, 2, 3]`; used to instantiate universally
quantified pipeline statements. -/
def constUnitPrims : PILPrims Unit where
  openImage _ := .ok ()
  mode _ := "RGB"
  size _ := (1, 1)
  compositeOnWhite _ := .ok ()
  fitOp _ _ := .ok ()
  resizeOp _ _ := .ok ()
  thumbnailOp _ _ := .ok ()
  rotateOp _ _ := .ok ()
  transposeTopBottom _ := .ok ()
  transposeLeftRight _ := .ok ()
  grayscaleOp _ := .ok ()
  convertRGB _ := .ok ()
  gaussianBlur _ _ := .ok ()
  save _ _ _ _ _ := .ok [1, 2, 3]

/-- `constUnitPrims` with a decoder that always raises (corrupt input
bytes). -/
def failingOpenPrims : PILPrims Unit :=
  { constUnitPrims with openImage := fun _ => .error ⟨"cannot identify image file"⟩ }

/-! ### Theorems -/

theorem validateQuality_bounds (q : Int) : 10 ≤ validateQuality q ∧ validateQuality q ≤ 100 := by
  unfold validateQuality
  omega

/-- C5: `get_optimal_quality` with a `custom_quality` returns it clamped to
`[10, 100]`, ignoring the profile table and the dynamic size adjustment; and
without a custom quality, for jpeg/webp/avif a size hint above 2 MiB lowers
the profile's base quality by 5 floored at 70/65/45 per format (in
particular `("jpeg", HIGH, sizeHint = 3 MiB)` gives 85), while a size hint
below 50 KiB raises it by 5 ceilinged at 95/90/75 per format. -/
theorem c5_quality_policy_custom_and_dynamic :
    (∀ (dp : QualityProfile) (fmt : String) (qp : Option QualityProfile)
        (cq : Int) (sh : Option Int),
        getOptimalQuality dp fmt qp (some cq) sh = max 10 (min 100 cq)) ∧
    (∀ (dp profile : QualityProfile) (fmt : String) (size : Int),
        fmt ∈ (["jpeg", "webp", "avif"] : List String) →
        2 * 1024 * 1024 < size →
        getOptimalQuality dp fmt (some profile) none (some size) =
          max ((qualitySettings profile fmt).getD 85 - 5) (perFormatFloor fmt)) ∧
    (getOptimalQuality .standard "jpeg" (some .high) none (some (3 * 1024 * 1024)) = 85) ∧
    (∀ (dp profile : QualityProfile) (fmt : String) (size : Int),
        fmt ∈ (["jpeg", "webp", "avif"] : List String) →
        size < 50 * 1024 →
        getOptimalQuality dp fmt (some profile) none (some size) =
          min ((qualitySettings profile fmt).getD 85 + 5) (perFormatCeil fmt)) := by
  refine ⟨?_, ?_, by decide, ?_⟩
  · intro dp fmt qp cq sh
    rfl
  · intro dp profile fmt size hmem hsize
    have hadj : ∀ b : Int, applyDynamicAdjustment b size fmt =
        if fmt = "jpeg" then max (b - 5) 70 else if fmt = "webp" then max (b - 5) 65
        else if fmt = "avif" then max (b - 5) 45 else b := by
      intro b; unfold applyDynamicAdjustment; rw [if_pos hsize]
    have hfmt : fmt = "jpeg" ∨ fmt = "webp" ∨ fmt = "avif" := by simpa using hmem
    rcases hfmt with rfl | rfl | rfl <;> cases profile <;>
      simp +decide [getOptimalQuality, normalizeFormat, asciiLower, hadj, validateQuality,
        qualitySettings, perFormatFloor]
  · intro dp profile fmt size hmem hsize
    have hns : ¬ (2 * 1024 * 1024 < size) := by omega
    have hadj : ∀ b : Int, applyDynamicAdjustment b size fmt =
        if fmt = "jpeg" then min (b + 5) 95 else if fmt = "webp" then min (b + 5) 90
        else if fmt = "avif" then min (b + 5) 75 else b := by
      intro b; unfold applyDynamicAdjustment; rw [if_neg hns, if_pos hsize]
    have hfmt : fmt = "jpeg" ∨ fmt = "webp" ∨ fmt = "avif" := by simpa using hmem
    rcases hfmt with rfl | rfl | rfl <;> cases profile <;>
      simp +decide [getOptimalQuality, normalizeFormat, asciiLower, hadj, validateQuality,
        qualitySettings, perFormatCeil]

/-- Witness for C5 at concrete inputs. -/
theorem c5_quality_policy_custom_and_dynamic_witness :
    getOptimalQuality .standard "webp" (some .high) none (some (3 * 1024 * 1024)) = 80 ∧
    getOptimalQuality .standard "avif" (some .optimized) none (some 1000) = 55 := by
  constructor
  · have h := c5_quality_policy_custom_and_dynamic.2.1 .standard .high "webp"
      (3 * 1024 * 1024) (by decide) (by decide)
    rw [h]; decide
  · have h := c5_quality_policy_custom_and_dynamic.2.2.2 .standard .optimized "avif"
      1000 (by decide) (by decide)
    rw [h]; decide

/-- C6 counterexample: for `png` without a custom quality the returned value
is the PNG compression level (9 for the OPTIMIZED profile), which is *not*
in `[10, 100]` — the `png` branch returns before `_validate_quality` runs. -/
theorem c6_counterexample_png_below_range :
    getOptimalQuality .standard "png" (some .optimized) none none = 9 ∧
    ¬ (10 ≤ getOptimalQuality .standard "png" (some .optimized) none none) := by
  decide

/-- C6 amended: the result of `get_optimal_quality` lies in `[10, 100]` for
every non-png format and whenever a custom quality is supplied (png
included); for png without a custom quality it is instead the profile's
compression level, which lies in `[0, 9]` (concretely 6 or 9). -/
theorem c6_amended_quality_range :
    (∀ (dp : QualityProfile) (fmt : String) (qp : Option QualityProfile)
        (cq : Int) (sh : Option Int),
        10 ≤ getOptimalQuality dp fmt qp (some cq) sh ∧
          getOptimalQuality dp fmt qp (some cq) sh ≤ 100) ∧
    (∀ (dp : QualityProfile) (fmt : String) (qp : Option QualityProfile)
        (sh : Option Int), normalizeFormat fmt ≠ "png" →
        10 ≤ getOptimalQuality dp fmt qp none sh ∧
          getOptimalQuality dp fmt qp none sh ≤ 100) ∧
    (∀ (dp : QualityProfile) (fmt : String) (qp : Option QualityProfile)
        (sh : Option Int), normalizeFormat fmt = "png" →
        getOptimalQuality dp fmt qp none sh = pngCompressionLevels (qp.getD dp) ∧
          0 ≤ getOptimalQuality dp fmt qp none sh ∧
          getOptimalQuality dp fmt qp none sh ≤ 9) := by
  refine ⟨?_, ?_, ?_⟩
  · intro dp fmt qp cq sh
    exact validateQuality_bounds cq
  · intro dp fmt qp sh hpng
    show 10 ≤ getOptimalQuality dp fmt qp none sh ∧ getOptimalQuality dp fmt qp none sh ≤ 100
    unfold getOptimalQuality
    rw [if_neg hpng]
    exact validateQuality_bounds _
  · intro dp fmt qp sh hpng
    unfold getOptimalQuality
    rw [if_pos hpng]
    refine ⟨rfl, ?_, ?_⟩ <;> cases qp.getD dp <;> decide

/-- Witness for C6 amended at concrete inputs. -/
theorem c6_amended_quality_range_witness :
    (10 ≤ getOptimalQuality .standard "png" none (some 3) none ∧
      getOptimalQuality .standard "png" none (some 3) none ≤ 100) ∧
    (10 ≤ getOptimalQuality .standard "webp" (some .optimized) none none ∧
      getOptimalQuality .standard "webp" (some .optimized) none none ≤ 100) ∧
    getOptimalQuality .high "png" none none none = 6 :=
  ⟨c6_amended_quality_range.1 .standard "png" none 3 none,
   c6_amended_quality_range.2.1 .standard "webp" (some .optimized) none (by decide),
   ((c6_amended_quality_range.2.2 .high "png" none none (by decide)).1).trans (by decide)⟩

/-- C4 counterexample: for a validated `f=webp` request the encoder quality
argument computed by `process_image` is the default 85, whereas
`QualityOptimizer.get_optimal_quality` for webp under the request's profile
(STANDARD, by `determine_quality_profile_from_params`) is 80 — the pipeline
never consults the quality policy. -/
theorem c4_counterexample_webp_default_quality :
    (computeSaveArgs ({ format := some "webp" } : TransformParams)).quality = some 85 ∧
    determineQualityProfileFromParams .standard ({ format := some "webp" } : TransformParams) =
      .standard ∧
    getOptimalQuality .standard "webp"
      (some (determineQualityProfileFromParams .standard
        ({ format := some "webp" } : TransformParams))) none none = 80 ∧
    (85 : Int) ≠ 80 := by
  decide

/-- C4 amended: the encoder arguments of `process_image` do not come from
`QualityOptimizer`: for JPEG/WEBP output the quality argument is the request's
validated `q` value (default 85), PNG output always gets `compress_level = 6`,
and any other output format (AVIF included) gets neither a quality nor a
compression argument. -/
theorem c4_amended_save_args_ignore_policy :
    ∀ p : TransformParams,
      ((outputFormatOf p = "JPEG" ∨ outputFormatOf p = "WEBP") →
        (computeSaveArgs p).quality = some (p.quality.getD 85) ∧
          (computeSaveArgs p).compressLevel = none) ∧
      (outputFormatOf p = "PNG" →
        (computeSaveArgs p).compressLevel = some 6 ∧ (computeSaveArgs p).quality = none) ∧
      (¬ (outputFormatOf p = "JPEG" ∨ outputFormatOf p = "WEBP") → outputFormatOf p ≠ "PNG" →
        (computeSaveArgs p).quality = none ∧ (computeSaveArgs p).compressLevel = none) := by
  intro p
  refine ⟨?_, ?_, ?_⟩
  · intro h
    unfold computeSaveArgs
    rw [if_pos h]
    exact ⟨rfl, rfl⟩
  · intro h
    unfold computeSaveArgs
    have hn : ¬ (outputFormatOf p = "JPEG" ∨ outputFormatOf p = "WEBP") := by
      rw [h]; decide
    rw [if_neg hn, if_pos h]
    exact ⟨rfl, rfl⟩
  · intro h1 h2
    unfold computeSaveArgs
    rw [if_neg h1, if_neg h2]
    exact ⟨rfl, rfl⟩

/-- Witness for C4 amended at concrete inputs. -/
theorem c4_amended_save_args_ignore_policy_witness :
    (computeSaveArgs ({ quality := some 42 } : TransformParams)).quality = some 42 ∧
    (computeSaveArgs ({ format := some "png" } : TransformParams)).compressLevel = some 6 ∧
    (computeSaveArgs ({ format := some "avif" } : TransformParams)).quality = none :=
  ⟨((c4_amended_save_args_ignore_policy { quality := some 42 }).1 (by decide)).1,
   ((c4_amended_save_args_ignore_policy { format := some "png" }).2.1 (by decide)).1,
   ((c4_amended_save_args_ignore_policy { format := some "avif" }).2.2 (by decide) (by decide)).1⟩

/-- C2: with signature checking enabled, `validate_signature` yields 403 when
the `signature` or `expires` query parameter is missing, 400 when `expires`
does not parse as an integer, and 403 ("Signature has expired") when the
expiry epoch is before the current time — regardless of the secret and of
the HMAC function, i.e. even when the provided signature is the correct HMAC
of the canonical string. -/
theorem c2_signature_gate_rejections :
    (∀ (env : SigEnv) (t : Int) (path query : Chars),
        optCharsTruthy ((qsGet (parseQs query) sigKey).bind List.head?) = false →
        validateSignature env t path query = .error ⟨"Missing signature parameter", 403⟩) ∧
    (∀ (env : SigEnv) (t : Int) (path query : Chars),
        optCharsTruthy ((qsGet (parseQs query) sigKey).bind List.head?) = true →
        optCharsTruthy ((qsGet (parseQs query) expKey).bind List.head?) = false →
        validateSignature env t path query = .error ⟨"Missing expires parameter", 403⟩) ∧
    (∀ (env : SigEnv) (t : Int) (path query : Chars) (m : String),
        optCharsTruthy ((qsGet (parseQs query) sigKey).bind List.head?) = true →
        optCharsTruthy ((qsGet (parseQs query) expKey).bind List.head?) = true →
        pyIntParse (String.mk ((((qsGet (parseQs query) expKey).bind
          List.head?)).getD [])) = .error m →
        validateSignature env t path query = .error ⟨"Invalid expires parameter", 400⟩) ∧
    (∀ (env : SigEnv) (t : Int) (path query : Chars) (n : Int),
        optCharsTruthy ((qsGet (parseQs query) sigKey).bind List.head?) = true →
        optCharsTruthy ((qsGet (parseQs query) expKey).bind List.head?) = true →
        pyIntParse (String.mk ((((qsGet (parseQs query) expKey).bind
          List.head?)).getD [])) = .ok n →
        n < t →
        validateSignature env t path query = .error ⟨"Signature has expired", 403⟩) := by
  refine ⟨?_, ?_, ?_, ?_⟩
  · intro env t path query hsig
    simp [validateSignature, hsig]
  · intro env t path query hsig hexp
    simp [validateSignature, hsig, hexp]
  · intro env t path query m hsig hexp hparse
    simp [validateSignature, hsig, hexp, hparse]
  · intro env t path query n hsig hexp hparse hlt
    simp [validateSignature, hsig, hexp, hparse, hlt]

/-- Witness for C2 at concrete inputs (`t = 10`). -/
theorem c2_signature_gate_rejections_witness :
    validateSignature ⟨.ok "s", fun _ _ => []⟩ 10 "/p".toList "expires=100".toList =
      .error ⟨"Missing signature parameter", 403⟩ ∧
    validateSignature ⟨.ok "s", fun _ _ => []⟩ 10 "/p".toList "signature=abc".toList =
      .error ⟨"Missing expires parameter", 403⟩ ∧
    validateSignature ⟨.ok "s", fun _ _ => []⟩ 10 "/p".toList
        "signature=abc&expires=xyz".toList = .error ⟨"Invalid expires parameter", 400⟩ ∧
    validateSignature ⟨.ok "s", fun _ _ => []⟩ 10 "/p".toList
        "signature=abc&expires=5".toList = .error ⟨"Signature has expired", 403⟩ :=
  ⟨c2_signature_gate_rejections.1 _ 10 _ _ (by decide),
   c2_signature_gate_rejections.2.1 _ 10 _ _ (by decide) (by decide),
   c2_signature_gate_rejections.2.2.1 _ 10 _ _ "invalid literal for int() with base 10: xyz"
     (by decide) (by decide) (by decide),
   c2_signature_gate_rejections.2.2.2 _ 10 _ _ 5 (by decide) (by decide) (by decide) (by decide)⟩

theorem checkWidth_error_400 (p : ParamDict) (ve : VErr) (h : checkWidth p = .error ve)
    (e : ImgError) (hve : ve = .imgError e) : e.status = 400 := by
  subst hve
  unfold checkWidth at h
  repeat' split at h
  all_goals cases h
  all_goals rfl

theorem checkHeight_error_400 (p : ParamDict) (ve : VErr) (h : checkHeight p = .error ve)
    (e : ImgError) (hve : ve = .imgError e) : e.status = 400 := by
  subst hve
  unfold checkHeight at h
  repeat' split at h
  all_goals cases h
  all_goals rfl

theorem checkQuality_error_400 (p : ParamDict) (ve : VErr) (h : checkQuality p = .error ve)
    (e : ImgError) (hve : ve = .imgError e) : e.status = 400 := by
  subst hve
  unfold checkQuality at h
  repeat' split at h
  all_goals cases h
  all_goals rfl

theorem checkFormat_error_400 (p : ParamDict) (ve : VErr) (h : checkFormat p = .error ve)
    (e : ImgError) (hve : ve = .imgError e) : e.status = 400 := by
  subst hve
  unfold checkFormat at h
  split at h
  · cases h
  · next s heq =>
    by_cases hc : supportedFormats.contains (asciiLower s) = true
    · rw [if_pos hc] at h; cases h
    · rw [if_neg hc] at h; cases h; rfl

theorem checkRotation_error_400 (p : ParamDict) (ve : VErr) (h : checkRotation p = .error ve)
    (e : ImgError) (hve : ve = .imgError e) : e.status = 400 := by
  subst hve
  unfold checkRotation at h
  repeat' split at h
  all_goals cases h
  all_goals rfl

theorem checkFit_error_400 (p : ParamDict) (ve : VErr) (h : checkFit p = .error ve)
    (e : ImgError) (hve : ve = .imgError e) : e.status = 400 := by
  subst hve
  unfold checkFit at h
  split at h
  · cases h
  · next s heq =>
    by_cases hc : validFitValues.contains (asciiLower s) = true
    · rw [if_pos hc] at h; cases h
    · rw [if_neg hc] at h; cases h; rfl

theorem checkBlur_error_400 (p : ParamDict) (ve : VErr) (h : checkBlur p = .error ve)
    (e : ImgError) (hve : ve = .imgError e) : e.status = 400 := by
  subst hve
  unfold checkBlur at h
  repeat' split at h
  all_goals cases h
  all_goals rfl

theorem validateBody_error_400 (p : ParamDict) (ve : VErr) (h : validateBody p = .error ve)
    (e : ImgError) (hve : ve = .imgError e) : e.status = 400 := by
  unfold validateBody at h
  simp only [Bind.bind, Except.bind] at h
  cases hw : checkWidth p <;> rw [hw] at h <;> simp at h
  case error => exact checkWidth_error_400 p _ hw e (h ▸ hve)
  cases hh : checkHeight p <;> rw [hh] at h <;> simp at h
  case error => exact checkHeight_error_400 p _ hh e (h ▸ hve)
  cases hq : checkQuality p <;> rw [hq] at h <;> simp at h
  case error => exact checkQuality_error_400 p _ hq e (h ▸ hve)
  cases hf : checkFormat p <;> rw [hf] at h <;> simp at h
  case error => exact checkFormat_error_400 p _ hf e (h ▸ hve)
  cases hr : checkRotation p <;> rw [hr] at h <;> simp at h
  case error => exact checkRotation_error_400 p _ hr e (h ▸ hve)
  cases hfi : checkFit p <;> rw [hfi] at h <;> simp at h
  case error => exact checkFit_error_400 p _ hfi e (h ▸ hve)
  cases hb : checkBlur p <;> rw [hb] at h <;> simp [Pure.pure, Except.pure] at h
  case error => exact checkBlur_error_400 p _ hb e (h ▸ hve)

/-- Every error raised by `validate_transform_params` carries status 400. -/
theorem validateTransformParams_error_400 (p : ParamDict) (err : ImgError)
    (h : validateTransformParams p = .error err) : err.status = 400 := by
  unfold validateTransformParams at h
  cases hb : validateBody p <;> rw [hb] at h
  case ok => cases h
  case error ve =>
    cases ve with
    | valueError m => simp at h; rw [← h]
    | imgError e => simp at h; exact h ▸ validateBody_error_400 p _ hb e rfl

theorem validateTransformParams_ok_wh (p : ParamDict) (r : TransformParams)
    (h : validateTransformParams p = .ok r) :
    (∃ w, checkWidth p = .ok w) ∧ (∃ hgt, checkHeight p = .ok hgt) := by
  unfold validateTransformParams at h
  cases hb : validateBody p <;> rw [hb] at h
  case error ve => cases ve <;> simp at h
  case ok r' =>
    unfold validateBody at hb
    simp only [Bind.bind, Except.bind] at hb
    cases hw : checkWidth p <;> rw [hw] at hb
    case error => simp at hb
    case ok w =>
      refine ⟨⟨w, rfl⟩, ?_⟩
      cases hh : checkHeight p <;> rw [hh] at hb
      case error => simp at hb
      case ok hgt => exact ⟨hgt, rfl⟩

theorem checkWidth_ok_bounds (p : ParamDict) (w : Option Int) (h : checkWidth p = .ok w)
    (s : String) (hs : dictGet p "w" = some s) (n : Int) (hn : pyIntParse s = .ok n) :
    0 < n ∧ n ≤ 2000 := by
  unfold checkWidth at h
  rw [hs] at h
  simp only [hn] at h
  split at h
  · cases h
  · split at h
    · cases h
    · omega

theorem checkHeight_ok_bounds (p : ParamDict) (w : Option Int) (h : checkHeight p = .ok w)
    (s : String) (hs : dictGet p "h" = some s) (n : Int) (hn : pyIntParse s = .ok n) :
    0 < n ∧ n ≤ 2000 := by
  unfold checkHeight at h
  rw [hs] at h
  simp only [hn] at h
  split at h
  · cases h
  · split at h
    · cases h
    · omega

/-- C7: `validate_transform_params` rejects `w`/`h` values that are `≤ 0` or
`> 2000` with a status-400 validation error, accepts exactly 2000, and turns
a non-numeric value for any numeric key (`w`, `h`, `q`, `r`, `blur`) into a
status-400 error embedding the underlying parse message. -/
theorem c7_validator_bounds_and_parse_errors :
    (∀ (p : ParamDict) (s : String) (n : Int),
        dictGet p "w" = some s → pyIntParse s = .ok n → (n ≤ 0 ∨ 2000 < n) →
        ∃ m, validateTransformParams p = .error ⟨m, 400⟩) ∧
    (∀ (p : ParamDict) (s : String) (n : Int),
        dictGet p "h" = some s → pyIntParse s = .ok n → (n ≤ 0 ∨ 2000 < n) →
        ∃ m, validateTransformParams p = .error ⟨m, 400⟩) ∧
    (validateTransformParams [("w", "2000"), ("h", "2000")] =
      .ok { width := some 2000, height := some 2000 }) ∧
    (∀ (s m : String), pyIntParse s = .error m →
        validateTransformParams [("w", s)] = .error ⟨"Invalid parameter value: " ++ m, 400⟩) ∧
    (∀ (s m : String), pyIntParse s = .error m →
        validateTransformParams [("h", s)] = .error ⟨"Invalid parameter value: " ++ m, 400⟩) ∧
    (∀ (s m : String), pyIntParse s = .error m →
        validateTransformParams [("q", s)] = .error ⟨"Invalid parameter value: " ++ m, 400⟩) ∧
    (∀ (s m : String), pyIntParse s = .error m →
        validateTransformParams [("r", s)] = .error ⟨"Invalid parameter value: " ++ m, 400⟩) ∧
    (∀ (s m : String), pyFloatParse s = .error m →
        validateTransformParams [("blur", s)] = .error ⟨"Invalid parameter value: " ++ m, 400⟩) := by
  refine ⟨?_, ?_, by decide, ?_, ?_, ?_, ?_, ?_⟩
  · intro p s n hs hn hbad
    cases hres : validateTransformParams p with
    | error err =>
      obtain ⟨ms, st⟩ := err
      have h400 := validateTransformParams_error_400 p _ hres
      simp only at h400
      subst h400
      exact ⟨ms, rfl⟩
    | ok r =>
      exfalso
      obtain ⟨⟨w, hw⟩, -⟩ := validateTransformParams_ok_wh p r hres
      have := checkWidth_ok_bounds p w hw s hs n hn
      omega
  · intro p s n hs hn hbad
    cases hres : validateTransformParams p with
    | error err =>
      obtain ⟨ms, st⟩ := err
      have h400 := validateTransformParams_error_400 p _ hres
      simp only at h400
      subst h400
      exact ⟨ms, rfl⟩
    | ok r =>
      exfalso
      obtain ⟨-, ⟨hgt, hh⟩⟩ := validateTransformParams_ok_wh p r hres
      have := checkHeight_ok_bounds p hgt hh s hs n hn
      omega
  · intro s m hm
    simp +decide [validateTransformParams, validateBody, checkWidth, checkHeight, checkQuality,
      checkFormat, checkRotation, checkFit, checkBoolFlag, checkGrayscale, checkBlur,
      checkSmartCrop, dictGet, dictContains, hm, Bind.bind, Except.bind]
  · intro s m hm
    simp +decide [validateTransformParams, validateBody, checkWidth, checkHeight, checkQuality,
      checkFormat, checkRotation, checkFit, checkBoolFlag, checkGrayscale, checkBlur,
      checkSmartCrop, dictGet, dictContains, hm, Bind.bind, Except.bind]
  · intro s m hm
    simp +decide [validateTransformParams, validateBody, checkWidth, checkHeight, checkQuality,
      checkFormat, checkRotation, checkFit, checkBoolFlag, checkGrayscale, checkBlur,
      checkSmartCrop, dictGet, dictContains, hm, Bind.bind, Except.bind]
  · intro s m hm
    simp +decide [validateTransformParams, validateBody, checkWidth, checkHeight, checkQuality,
      checkFormat, checkRotation, checkFit, checkBoolFlag, checkGrayscale, checkBlur,
      checkSmartCrop, dictGet, dictContains, hm, Bind.bind, Except.bind]
  · intro s m hm
    simp +decide [validateTransformParams, validateBody, checkWidth, checkHeight, checkQuality,
      checkFormat, checkRotation, checkFit, checkBoolFlag, checkGrayscale, checkBlur,
      checkSmartCrop, dictGet, dictContains, hm, Bind.bind, Except.bind]

/-- Witness for C7 at concrete inputs. -/
theorem c7_validator_bounds_and_parse_errors_witness :
    (∃ m, validateTransformParams [("w", "5000")] = .error ⟨m, 400⟩) ∧
    (∃ m, validateTransformParams [("h", "0")] = .error ⟨m, 400⟩) ∧
    validateTransformParams [("r", "abc")] =
      .error ⟨"Invalid parameter value: invalid literal for int() with base 10: abc", 400⟩ ∧
    validateTransformParams [("blur", "soft")] =
      .error ⟨"Invalid parameter value: could not convert string to float: soft", 400⟩ :=
  ⟨c7_validator_bounds_and_parse_errors.1 [("w", "5000")] "5000" 5000
      (by decide) (by decide) (by decide),
   c7_validator_bounds_and_parse_errors.2.1 [("h", "0")] "0" 0
      (by decide) (by decide) (by decide),
   c7_validator_bounds_and_parse_errors.2.2.2.2.2.2.1 "abc"
      "invalid literal for int() with base 10: abc" (by decide),
   c7_validator_bounds_and_parse_errors.2.2.2.2.2.2.2 "soft"
      "could not convert string to float: soft" (by decide)⟩

/-- C1: once a non-empty validated parameter set is in play, any exception
raised inside the `try` body of `process_image` (decoding, color
normalization, resize, rotation, flips, color effects, filters, encoding —
all of which surface as an `Except.error` of `processImageBody`) makes
`process_image` return exactly the original input bytes; the function is
total, so no exception escapes the pipeline boundary, and in particular
undecodable input bytes are returned unchanged. -/
theorem c1_pipeline_absorbs_exceptions :
    ∀ (Img : Type) (prims : PILPrims Img) (imageBytes : Bytes) (params : TransformParams)
      (e : PyErr),
      (processImageBody prims imageBytes params = .error e →
        processImage prims imageBytes params = imageBytes) ∧
      (processImage prims imageBytes params = imageBytes ∨
        processImageBody prims imageBytes params = .ok (processImage prims imageBytes params)) ∧
      (prims.openImage imageBytes = .error e →
        processImage prims imageBytes params = imageBytes) := by
  intro Img prims imageBytes params e
  refine ⟨?_, ?_, ?_⟩
  · intro h
    unfold processImage
    split
    · rfl
    · rw [h]
  · unfold processImage
    split
    · exact Or.inl rfl
    · cases hb : processImageBody prims imageBytes params with
      | ok out => exact Or.inr rfl
      | error err => exact Or.inl rfl
  · intro h
    have hbody : processImageBody prims imageBytes params = .error e := by
      unfold processImageBody
      rw [h]
      rfl
    unfold processImage
    split
    · rfl
    · rw [hbody]

/-- Witness for C1: corrupt bytes with a failing decoder are returned
byte-for-byte even though the request has parameters. -/
theorem c1_pipeline_absorbs_exceptions_witness :
    processImage failingOpenPrims [9, 9, 9] ({ rotate := some 90 } : TransformParams) =
      [9, 9, 9] :=
  (c1_pipeline_absorbs_exceptions Unit failingOpenPrims [9, 9, 9] { rotate := some 90 }
    ⟨"cannot identify image file"⟩).2.2 (by decide)

/-- C10 counterexample: a validated request whose only parameter is
`rotate = 0` does *not* produce the same result as the request with the
parameter absent: the former still re-encodes the image (here to the
encoder's output `[1, 2, 3]`), while the empty parameter set short-circuits
and returns the original bytes `[9]`. -/
theorem c10_counterexample_bare_rotate_zero :
    processImage constUnitPrims [9] ({ rotate := some 0 } : TransformParams) = [1, 2, 3] ∧
    processImage constUnitPrims [9] ({} : TransformParams) = [9] ∧
    ([1, 2, 3] : Bytes) ≠ [9] := by
  decide

/-- C10 amended: the validator accepts `r=0` and `blur=0`; the rotation and
blur stages are skipped when their parameter equals zero; and a validated
request with `rotate = 0` (resp. `blur = 0`) behaves exactly like the same
request with the parameter absent *provided* the remaining parameter set is
non-empty — a request consisting solely of the zero parameter still
re-encodes, unlike the empty request. -/
theorem c10_amended_zero_stages_skipped :
    (validateTransformParams [("r", "0")] = .ok { rotate := some 0 }) ∧
    (validateTransformParams [("blur", "0")] = .ok { blur := some 0 }) ∧
    (∀ (Img : Type) (prims : PILPrims Img) (image : Img) (params : TransformParams),
        applyRotationAndFlips prims image { params with rotate := some 0 } =
          applyRotationAndFlips prims image { params with rotate := none }) ∧
    (∀ (Img : Type) (prims : PILPrims Img) (image : Img) (params : TransformParams),
        applyFilters prims image { params with blur := some 0 } =
          applyFilters prims image { params with blur := none }) ∧
    (∀ (Img : Type) (prims : PILPrims Img) (imageBytes : Bytes) (params : TransformParams),
        TransformParams.isEmpty { params with rotate := none } = false →
        processImage prims imageBytes { params with rotate := some 0 } =
          processImage prims imageBytes { params with rotate := none }) ∧
    (∀ (Img : Type) (prims : PILPrims Img) (imageBytes : Bytes) (params : TransformParams),
        TransformParams.isEmpty { params with blur := none } = false →
        processImage prims imageBytes { params with blur := some 0 } =
          processImage prims imageBytes { params with blur := none }) := by
  refine ⟨by decide, ?_, ?_, ?_, ?_, ?_⟩
  · simp +decide [validateTransformParams, validateBody, checkWidth, checkHeight, checkQuality,
      checkFormat, checkRotation, checkFit, checkBoolFlag, checkGrayscale, checkBlur,
      checkSmartCrop, dictGet, dictContains, pyFloatParse, ratOfParts, stripWs, readSign,
      digitsToNat, Bind.bind, Except.bind]
  · intro Img prims image params
    rfl
  · intro Img prims image params
    have h0 : optRatTruthy (some 0) = optRatTruthy none := by
      simp [optRatTruthy]
    unfold applyFilters
    rw [show ({ params with blur := some 0 } : TransformParams).blur = some 0 from rfl,
      show ({ params with blur := none } : TransformParams).blur = none from rfl, h0]
    rfl
  · intro Img prims imageBytes params hne
    have h0 : TransformParams.isEmpty { params with rotate := some 0 } = false := by
      simp [TransformParams.isEmpty]
    unfold processImage
    rw [h0, hne]
    rfl
  · intro Img prims imageBytes params hne
    have h0 : TransformParams.isEmpty { params with blur := some 0 } = false := by
      simp [TransformParams.isEmpty]
    have hbody : processImageBody prims imageBytes { params with blur := some 0 } =
        processImageBody prims imageBytes { params with blur := none } := by
      unfold processImageBody applyTransformations applyFilters
      have h1 : optRatTruthy (some 0) = optRatTruthy none := by simp [optRatTruthy]
      rw [show ({ params with blur := some 0 } : TransformParams).blur = some 0 from rfl,
        show ({ params with blur := none } : TransformParams).blur = none from rfl, h1]
      rfl
    unfold processImage
    rw [h0, hne, hbody]

/-- Witness for C10 amended: with a second parameter (`w=100`) present,
`rotate = 0` and its absence give identical pipeline results. -/
theorem c10_amended_zero_stages_skipped_witness :
    processImage constUnitPrims [9] ({ width := some 100, rotate := some 0 } : TransformParams) =
      processImage constUnitPrims [9] ({ width := some 100 } : TransformParams) :=
  c10_amended_zero_stages_skipped.2.2.2.2.1 Unit constUnitPrims [9]
    { width := some 100, rotate := some 0 } (by decide)

/-- Exhaustive description of `handle_error` outcomes. -/
theorem handleError_cases (env : ErrorEnv) (e : ImgError) :
    handleError env e =
        (if env.writeOk (errorJsonResponse e) then some (errorJsonResponse e) else none) ∨
      (∃ b, env.fetchOriginal = .ok b ∧ e.status < 500 ∧
        handleError env e = some ⟨b, "application/octet-stream", 200⟩) ∨
      (∃ fb, env.getFallbackImage = some fb ∧ 500 ≤ e.status ∧
        env.fallbackEnabled = true ∧ handleError env e = some ⟨fb, "image/jpeg", 200⟩) := by
  by_cases hen : (env.fallbackEnabled && decide (500 ≤ e.status)) = true
  · cases hfb : env.getFallbackImage with
    | some fb =>
      by_cases hw : env.writeOk ⟨fb, "image/jpeg", 200⟩ = true
      · have h := hen
        simp only [Bool.and_eq_true, decide_eq_true_eq] at h
        refine Or.inr (Or.inr ⟨fb, rfl, h.2, h.1, ?_⟩)
        simp [handleError, hen, hfb, hw]
      · have hge : ¬ e.status < 500 := by
          simp only [Bool.and_eq_true, decide_eq_true_eq] at hen
          omega
        refine Or.inl ?_
        simp [handleError, hen, hfb, hw, hge]
    | none =>
      have hge : ¬ e.status < 500 := by
        simp only [Bool.and_eq_true, decide_eq_true_eq] at hen
        omega
      refine Or.inl ?_
      simp [handleError, hen, hfb, hge]
  · by_cases hlt : e.status < 500
    · cases hfetch : env.fetchOriginal with
      | ok b =>
        by_cases hw : env.writeOk ⟨b, "application/octet-stream", 200⟩ = true
        · refine Or.inr (Or.inl ⟨b, rfl, hlt, ?_⟩)
          simp [handleError, hen, hfetch, hlt, hw]
        · refine Or.inl ?_
          simp [handleError, hen, hfetch, hlt, hw]
      | error err =>
        refine Or.inl ?_
        simp [handleError, hen, hfetch, hlt]
    · refine Or.inl ?_
      simp [handleError, hen, hlt]

/-- C8: `handle_error` serves the original source bytes (generic content
type) for sub-500 errors when the fetch and write succeed; serves the
configured static fallback image for ≥500 errors when one is available and
the write succeeds; in every case the outcome is one of: the applicable
attempt's response, the JSON error body carrying the original error's
status code, or no response when even that last write fails.  Any delivered
JSON response carries exactly the original error's status and the body
`{"error": <message>}` — a fallback attempt's own failure never changes the
original error's status. -/
theorem c8_fallback_policy :
    (∀ (env : ErrorEnv) (e : ImgError) (b : Bytes),
        e.status < 500 → env.fetchOriginal = .ok b →
        env.writeOk ⟨b, "application/octet-stream", 200⟩ = true →
        handleError env e = some ⟨b, "application/octet-stream", 200⟩) ∧
    (∀ (env : ErrorEnv) (e : ImgError) (fb : Bytes),
        500 ≤ e.status → env.fallbackEnabled = true → env.getFallbackImage = some fb →
        env.writeOk ⟨fb, "image/jpeg", 200⟩ = true →
        handleError env e = some ⟨fb, "image/jpeg", 200⟩) ∧
    (∀ (env : ErrorEnv) (e : ImgError),
        handleError env e =
            (if env.writeOk (errorJsonResponse e) then some (errorJsonResponse e) else none) ∨
          (∃ b, env.fetchOriginal = .ok b ∧ e.status < 500 ∧
            handleError env e = some ⟨b, "application/octet-stream", 200⟩) ∨
          (∃ fb, env.getFallbackImage = some fb ∧ 500 ≤ e.status ∧
            env.fallbackEnabled = true ∧ handleError env e = some ⟨fb, "image/jpeg", 200⟩)) ∧
    (∀ (env : ErrorEnv) (e : ImgError) (r : Response),
        handleError env e = some r → r.contentType = "application/json" →
        r.statusCode = e.status ∧ r.body = strToBytes (jsonErrorBody e.msg)) := by
  refine ⟨?_, ?_, handleError_cases, ?_⟩
  · intro env e b hlt hfetch hw
    have hen : ¬ (env.fallbackEnabled && decide (500 ≤ e.status)) = true := by
      simp only [Bool.and_eq_true, decide_eq_true_eq]
      rintro ⟨-, h⟩
      omega
    simp [handleError, hen, hfetch, hlt, hw]
  · intro env e fb hge hen hfb hw
    simp [handleError, hen, hge, hfb, hw]
  · intro env e r hr hct
    rcases handleError_cases env e with h | ⟨b, -, -, h⟩ | ⟨fb, -, -, -, h⟩
    · rw [h] at hr
      by_cases hw : env.writeOk (errorJsonResponse e) = true
      · rw [if_pos hw] at hr
        cases hr
        exact ⟨rfl, rfl⟩
      · rw [if_neg hw] at hr
        cases hr
    · rw [h] at hr
      cases hr
      simp at hct
    · rw [h] at hr
      cases hr
      simp at hct

/-- Witness for C8 at concrete environments. -/
theorem c8_fallback_policy_witness :
    handleError ⟨false, none, .ok [7], fun _ => true⟩ ⟨"bad request", 400⟩ =
      some ⟨[7], "application/octet-stream", 200⟩ ∧
    handleError ⟨true, some [5], .ok [7], fun _ => true⟩ ⟨"boom", 500⟩ =
      some ⟨[5], "image/jpeg", 200⟩ ∧
    (handleError ⟨true, none, .error ⟨"gone"⟩, fun _ => true⟩ ⟨"boom", 502⟩).map
      Response.statusCode = some 502 := by
  refine ⟨?_, ?_, ?_⟩
  · exact c8_fallback_policy.1 ⟨false, none, .ok [7], fun _ => true⟩ ⟨"bad request", 400⟩ [7]
      (by decide) rfl rfl
  · exact c8_fallback_policy.2.1 ⟨true, some [5], .ok [7], fun _ => true⟩ ⟨"boom", 500⟩ [5]
      (by decide) rfl rfl rfl
  · have h := c8_fallback_policy.2.2.2 ⟨true, none, .error ⟨"gone"⟩, fun _ => true⟩ ⟨"boom", 502⟩
      (errorJsonResponse ⟨"boom", 502⟩) (by decide) rfl
    rw [show handleError ⟨true, none, .error ⟨"gone"⟩, fun _ => true⟩ ⟨"boom", 502⟩ =
      some (errorJsonResponse ⟨"boom", 502⟩) from by decide]
    show some (errorJsonResponse ⟨"boom", 502⟩).statusCode = some 502
    rw [h.1]

theorem splitFirstEq_reconstruct (tok : Chars) (k v : Chars)
    (h : splitFirstEq tok = some (k, v)) : tok = k ++ '=' :: v := by
  induction tok generalizing k v with
  | nil => cases h
  | cons c rest ih =>
    unfold splitFirstEq at h
    split at h
    · rename_i hc
      subst hc
      cases h
      rfl
    · rename_i hc
      cases hsp : splitFirstEq rest with
      | none => rw [hsp] at h; cases h
      | some kv =>
        rw [hsp] at h
        cases h
        simpa using ih kv.1 kv.2 hsp

theorem unquoteChars_cons_ne (c : Char) (rest : Chars) (h : c ≠ '%') :
    unquoteChars (c :: rest) = c :: unquoteChars rest := by
  rcases rest with _ | ⟨c1, _ | ⟨c2, rest2⟩⟩ <;> simp [unquoteChars, h]

theorem unquoteChars_id (l : Chars) (h : ∀ c ∈ l, c ≠ '%') : unquoteChars l = l := by
  induction l with
  | nil => rfl
  | cons c rest ih =>
    rw [unquoteChars_cons_ne c rest (h c (List.mem_cons_self c rest))]
    rw [ih (fun x hx => h x (List.mem_cons_of_mem c hx))]

theorem plusToSpace_id (l : Chars) (h : ∀ c ∈ l, c ≠ '+') : plusToSpace l = l := by
  induction l with
  | nil => rfl
  | cons c rest ih =>
    unfold plusToSpace
    simp only [List.map_cons]
    rw [if_neg (h c (List.mem_cons_self c rest))]
    have := ih (fun x hx => h x (List.mem_cons_of_mem c hx))
    unfold plusToSpace at this
    rw [this]

theorem qslStep_clean (tok k v : Chars) (hsp : splitFirstEq tok = some (k, v))
    (hv : v ≠ []) (hc : ∀ c ∈ tok, c ≠ '%' ∧ c ≠ '+') :
    qslStep tok = some (k, v) := by
  have htok := splitFirstEq_reconstruct tok k v hsp
  have hk : ∀ c ∈ k, c ≠ '%' ∧ c ≠ '+' := by
    intro c hcm
    exact hc c (htok ▸ List.mem_append_left _ hcm)
  have hvc : ∀ c ∈ v, c ≠ '%' ∧ c ≠ '+' := by
    intro c hcm
    exact hc c (htok ▸ List.mem_append_right _ (List.mem_cons_of_mem _ hcm))
  unfold qslStep
  rw [hsp]
  simp only [hv, if_false]
  rw [plusToSpace_id k (fun c hcm => (hk c hcm).2),
    plusToSpace_id v (fun c hcm => (hvc c hcm).2),
    unquoteChars_id k (fun c hcm => (hk c hcm).1),
    unquoteChars_id v (fun c hcm => (hvc c hcm).1)]

/-- The per-token extraction once every token is known to split. -/
theorem filterMap_qslStep_eq_map (toks : List Chars)
    (h : ∀ tok ∈ toks, ∃ kv : Chars × Chars,
      splitFirstEq tok = some kv ∧ kv.2 ≠ [] ∧ ∀ c ∈ tok, c ≠ '%' ∧ c ≠ '+') :
    toks.filterMap qslStep = toks.map (fun tok => (splitFirstEq tok).getD ([], [])) := by
  induction toks with
  | nil => rfl
  | cons tok rest ih =>
    obtain ⟨kv, hsp, hv, hc⟩ := h tok (List.mem_cons_self tok rest)
    rw [List.filterMap_cons, List.map_cons,
      qslStep_clean tok kv.1 kv.2 hsp hv hc, hsp]
    rw [ih (fun t ht => h t (List.mem_cons_of_mem tok ht))]
    rfl

theorem addQsEntry_of_not_mem (acc : List (Chars × List Chars)) (k : Chars) (v : Chars)
    (h : ∀ kv ∈ acc, kv.1 ≠ k) : addQsEntry acc k v = acc ++ [(k, [v])] := by
  induction acc with
  | nil => rfl
  | cons kv rest ih =>
    unfold addQsEntry
    rw [if_neg]
    · rw [ih (fun x hx => h x (List.mem_cons_of_mem kv hx))]
      rfl
    · simp only [beq_iff_eq]
      exact h kv (List.mem_cons_self kv rest)

theorem foldl_addQsEntry_nodup (l : List (Chars × Chars)) (acc : List (Chars × List Chars))
    (h : (acc.map Prod.fst ++ l.map Prod.fst).Nodup) :
    l.foldl (fun a kv => addQsEntry a kv.1 kv.2) acc =
      acc ++ l.map (fun kv => (kv.1, [kv.2])) := by
  induction l generalizing acc with
  | nil => simp
  | cons kv rest ih =>
    simp only [List.foldl_cons]
    have hnotmem : ∀ x ∈ acc, x.1 ≠ kv.1 := by
      intro x hx heq
      have h1 : kv.1 ∈ acc.map Prod.fst := by
        exact heq ▸ List.mem_map_of_mem Prod.fst hx
      have h2 : kv.1 ∈ (kv :: rest).map Prod.fst := List.mem_cons_self _ _
      rcases List.disjoint_of_nodup_append h h1 h2
    rw [addQsEntry_of_not_mem acc kv.1 kv.2 hnotmem]
    have hn : ((acc ++ [(kv.1, [kv.2])]).map Prod.fst ++ rest.map Prod.fst).Nodup := by
      simp only [List.map_append, List.map_cons, List.map_nil] at h ⊢
      simpa [List.append_assoc] using h
    rw [ih (acc ++ [(kv.1, [kv.2])]) hn]
    simp

/-- C3 counterexample: the canonical string actually signed is built from
*percent-decoded* parameters, so for the query `a=b%20c&signature=s` it is
`/img.jpg?a=b c`, not the byte-for-byte `/img.jpg?a=b%20c` the claim
asserts. -/
theorem c3_counterexample_percent_decoding :
    stringToSign "/img.jpg".toList "a=b%20c&signature=s".toList = "/img.jpg?a=b c".toList ∧
    specStringToSign "/img.jpg".toList "a=b%20c&signature=s".toList =
      "/img.jpg?a=b%20c".toList ∧
    stringToSign "/img.jpg".toList "a=b%20c&signature=s".toList ≠
      specStringToSign "/img.jpg".toList "a=b%20c&signature=s".toList := by
  decide

/-- C3 amended: the canonical string is the path, `'?'`, and the `parse_qs`
view of the query re-joined with `'&'` — keys in first-occurrence order,
each with its first value, percent- and plus-decoded, blank-valued
parameters dropped.  For a query whose tokens all contain `'='` with
non-empty values, have pairwise distinct keys, and contain no `'%'` or `'+'`,
this coincides byte-for-byte with the original query minus the `signature`
parameter, as the claim states. -/
theorem c3_amended_canonical_clean_queries (path qs : Chars)
    (h1 : ∀ tok ∈ splitOnAmp qs, ∃ kv : Chars × Chars,
      splitFirstEq tok = some kv ∧ kv.2 ≠ [] ∧ ∀ c ∈ tok, c ≠ '%' ∧ c ≠ '+')
    (h2 : ((splitOnAmp qs).map tokenKey).Nodup) :
    stringToSign path qs = specStringToSign path qs := by
  unfold stringToSign specStringToSign queryWithoutSignature
  suffices h : ((parseQs qs).filter (fun kv => !(kv.1 == sigKey))).map
      (fun kv => kv.1 ++ '=' :: kv.2.headD []) =
      (splitOnAmp qs).filter (fun tok => !(tokenKey tok == sigKey)) by
    rw [h]
  have hA : parseQsl qs =
      (splitOnAmp qs).map (fun tok => (splitFirstEq tok).getD ([], [])) :=
    filterMap_qslStep_eq_map (splitOnAmp qs) h1
  have hkeys : ((splitOnAmp qs).map (fun tok => (splitFirstEq tok).getD ([], []))).map
      Prod.fst = (splitOnAmp qs).map tokenKey := by
    rw [List.map_map]
    apply List.map_congr_left
    intro tok ht
    obtain ⟨kv, hsp, -, -⟩ := h1 tok ht
    simp [Function.comp, hsp, tokenKey]
  have hC : parseQs qs = (parseQsl qs).map (fun kv => (kv.1, [kv.2])) := by
    unfold parseQs
    have := foldl_addQsEntry_nodup (parseQsl qs) []
      (by simpa [hA, hkeys] using h2)
    simpa using this
  rw [hC, hA, List.map_map, List.filter_map, List.map_map]
  have hfilter : ((splitOnAmp qs).filter
      ((fun kv => !(kv.1 == sigKey)) ∘ ((fun kv => (kv.1, [kv.2])) ∘
        (fun tok => (splitFirstEq tok).getD ([], []))))) =
      (splitOnAmp qs).filter (fun tok => !(tokenKey tok == sigKey)) := by
    apply List.filter_congr
    intro tok ht
    obtain ⟨kv, hsp, -, -⟩ := h1 tok ht
    simp [Function.comp, hsp, tokenKey]
  rw [hfilter]
  have : ∀ tok ∈ (splitOnAmp qs).filter (fun tok => !(tokenKey tok == sigKey)),
      ((fun kv => kv.1 ++ '=' :: kv.2.headD []) ∘ ((fun kv => (kv.1, [kv.2])) ∘
        (fun tok => (splitFirstEq tok).getD ([], [])))) tok = tok := by
    intro tok ht
    obtain ⟨kv, hsp, -, -⟩ := h1 tok (List.mem_of_mem_filter ht)
    simp only [Function.comp, hsp, Option.getD_some, List.headD_cons]
    exact (splitFirstEq_reconstruct tok kv.1 kv.2 hsp).symm
  rw [List.map_congr_left this]
  simp

/-- Witness for C3 amended: a clean query signs byte-for-byte. -/
theorem c3_amended_canonical_clean_queries_witness :
    stringToSign "/img.jpg".toList "w=100&signature=abc&expires=5".toList =
      specStringToSign "/img.jpg".toList "w=100&signature=abc&expires=5".toList :=
  c3_amended_canonical_clean_queries "/img.jpg".toList "w=100&signature=abc&expires=5".toList
    (by decide) (by decide)

theorem qsGet_cons (kv : Chars × List Chars) (rest : List (Chars × List Chars)) (k : Chars) :
    qsGet (kv :: rest) k = if kv.1 == k then some kv.2 else qsGet rest k := by
  unfold qsGet
  by_cases h : (kv.1 == k) = true <;> simp [List.find?, h]

theorem qsGet_addQsEntry (acc : List (Chars × List Chars)) (k' : Chars) (v : Chars)
    (k : Chars) :
    qsGet (addQsEntry acc k' v) k =
      if k' == k then some ((qsGet acc k).getD [] ++ [v]) else qsGet acc k := by
  induction acc with
  | nil =>
    by_cases h : (k' == k) = true <;>
      simp [addQsEntry, qsGet_cons, qsGet, h]
  | cons kv rest ih =>
    by_cases h1 : kv.1 = k'
    · by_cases h2 : k' = k
      · subst h1
        subst h2
        simp [addQsEntry, qsGet_cons]
      · subst h1
        simp [addQsEntry, qsGet_cons, h2]
    · by_cases h2 : k' = k
      · subst h2
        simp [addQsEntry, qsGet_cons, h1, ih]
      · simp [addQsEntry, qsGet_cons, h1, h2, ih]

theorem qsGet_foldl_addQsEntry (l : List (Chars × Chars)) (acc : List (Chars × List Chars))
    (k : Chars) :
    qsGet (l.foldl (fun a kv => addQsEntry a kv.1 kv.2) acc) k =
      (match qsGet acc k, ((l.filter (fun kv => kv.1 == k)).map Prod.snd) with
        | none, [] => none
        | none, vs => some vs
        | some u, vs => some (u ++ vs)) := by
  induction l generalizing acc with
  | nil =>
    cases h : qsGet acc k <;> simp [h]
  | cons kv rest ih =>
    simp only [List.foldl_cons]
    rw [ih (addQsEntry acc kv.1 kv.2), qsGet_addQsEntry]
    simp only [List.filter_cons]
    by_cases h1 : (kv.1 == k) = true
    · rw [if_pos h1, if_pos h1]
      simp only [List.map_cons]
      cases h : qsGet acc k <;> simp [h]
    · rw [if_neg h1, if_neg (by simp at h1 ⊢; exact h1)]

theorem dictGet_cons (kv : String × String) (rest : ParamDict) (k : String) :
    dictGet (kv :: rest) k = if kv.1 == k then some kv.2 else dictGet rest k := by
  unfold dictGet
  by_cases h : (kv.1 == k) = true <;> simp [List.find?, h]

theorem dictGet_dictInsert (d : ParamDict) (k' v k : String) :
    dictGet (dictInsert d k' v) k = if k' == k then some v else dictGet d k := by
  induction d with
  | nil =>
    by_cases h : k' = k <;> simp [dictInsert, dictGet_cons, dictGet, h]
  | cons kv rest ih =>
    by_cases h1 : kv.1 = k'
    · by_cases h2 : k' = k
      · subst h1; subst h2
        simp [dictInsert, dictGet_cons]
      · subst h1
        simp [dictInsert, dictGet_cons, h2]
    · by_cases h2 : k' = k
      · subst h2
        simp [dictInsert, dictGet_cons, h1, ih]
      · simp [dictInsert, dictGet_cons, h1, h2, ih]

/-- The value `parse_query_parameters` ends up with for a key is the one of
the *last* query token carrying that key (later inserts overwrite). -/
theorem parseQueryParameters_fold_last (toks : List Chars) (acc : ParamDict) (k : String) :
    dictGet (toks.foldl (fun params tok =>
        match splitFirstEq tok with
        | some kv => dictInsert params (String.mk kv.1) (String.mk (unquoteChars kv.2))
        | none => params) acc) k =
      (match ((toks.filterMap splitFirstEq).filter
          (fun kv => String.mk kv.1 == k)).getLast? with
        | some kv => some (String.mk (unquoteChars kv.2))
        | none => dictGet acc k) := by
  induction toks generalizing acc with
  | nil => rfl
  | cons tok rest ih =>
    simp only [List.foldl_cons, List.filterMap_cons]
    cases hsp : splitFirstEq tok with
    | none =>
      exact ih acc
    | some kv =>
      rw [ih (dictInsert acc (String.mk kv.1) (String.mk (unquoteChars kv.2)))]
      simp only [List.filter_cons]
      by_cases hk : (String.mk kv.1 == k) = true
      · rw [if_pos hk]
        cases hrest : ((rest.filterMap splitFirstEq).filter
            (fun kv => String.mk kv.1 == k)).getLast? with
        | some kv' => simp [List.getLast?_cons, List.getLastD_eq_getLast?, hrest]
        | none =>
          simp [List.getLast?_cons, List.getLastD_eq_getLast?, hrest,
            dictGet_dictInsert, hk]
      · rw [if_neg hk]
        cases hrest : ((rest.filterMap splitFirstEq).filter
            (fun kv => String.mk kv.1 == k)).getLast? with
        | some kv' => simp [hrest]
        | none => simp [hrest, dictGet_dictInsert, hk]

/-- Under clean characters and non-blank values for key `k`, the `parse_qs`
value sequence for `k` is exactly the raw occurrence sequence. -/
theorem filterMap_qslStep_values (toks : List Chars) (k : Chars)
    (hclean : ∀ tok ∈ toks, ∀ c ∈ tok, c ≠ '%' ∧ c ≠ '+')
    (hnb : ∀ kv : Chars × Chars, kv ∈ toks.filterMap splitFirstEq → kv.1 = k → kv.2 ≠ []) :
    ((toks.filterMap qslStep).filter (fun kv => kv.1 == k)).map Prod.snd =
      (((toks.filterMap splitFirstEq).filter (fun kv => kv.1 == k)).map Prod.snd) := by
  induction toks with
  | nil => rfl
  | cons tok rest ih =>
    have hcleanr : ∀ t ∈ rest, ∀ c ∈ t, c ≠ '%' ∧ c ≠ '+' :=
      fun t ht => hclean t (List.mem_cons_of_mem tok ht)
    have hnbr : ∀ kv : Chars × Chars, kv ∈ rest.filterMap splitFirstEq → kv.1 = k →
        kv.2 ≠ [] := by
      intro kv hm
      refine hnb kv ?_
      rw [List.filterMap_cons]
      cases hsp : splitFirstEq tok
      · exact hm
      · exact List.mem_cons_of_mem _ hm
    simp only [List.filterMap_cons]
    cases hsp : splitFirstEq tok with
    | none =>
      have hq : qslStep tok = none := by
        unfold qslStep
        rw [hsp]
      rw [hq]
      exact ih hcleanr hnbr
    | some kv =>
      by_cases hv : kv.2 = []
      · have hq : qslStep tok = none := by
          unfold qslStep
          rw [hsp]
          simp [hv]
        have hknot : ¬ ((kv.1 == k) = true) := by
          simp only [beq_iff_eq]
          intro he
          exact hnb kv (by rw [List.filterMap_cons, hsp]; exact List.mem_cons_self _ _) he hv
        rw [hq]
        simp only [List.filter_cons]
        rw [if_neg hknot]
        exact ih hcleanr hnbr
      · have hq : qslStep tok = some (kv.1, kv.2) := by
          refine qslStep_clean tok kv.1 kv.2 ?_ hv (hclean tok (List.mem_cons_self tok rest))
          simpa using hsp
        rw [hq]
        simp only [List.filter_cons]
        by_cases hk : (kv.1 == k) = true
        · rw [if_pos hk, if_pos hk]
          simp only [List.map_cons]
          rw [ih hcleanr hnbr]
        · rw [if_neg hk, if_neg hk]
          exact ih hcleanr hnbr

/-- C9 counterexample: for the query `a=&a=2` the key `a` occurs twice, with
first raw value `""` and last raw value `"2"`; `parse_qs` drops the blank
occurrence, so the canonical string's component for `a` is built from `"2"`
— *not* the first occurrence's value as the claim states (while
`parse_query_parameters` does return the last value `"2"`). -/
theorem c9_counterexample_blank_first_occurrence :
    (rawValues "a=&a=2".toList "a".toList).length = 2 ∧
    (rawValues "a=&a=2".toList "a".toList).head? = some [] ∧
    qsGet (parseQs "a=&a=2".toList) "a".toList = some ["2".toList] ∧
    queryWithoutSignature "a=&a=2".toList = "a=2".toList ∧
    dictGet (parseQueryParameters "a=&a=2") "a" = some "2" ∧
    ("2".toList : Chars) ≠ [] := by
  decide

/-- C9 amended: for a query without `'%'`/`'+'` in which a key `k` occurs
more than once and all its occurrences carry non-empty values, the
`parse_qs` view used for the canonical string holds `k`'s values in
occurrence order — so the canonical component uses the *first* occurrence —
whereas `parse_query_parameters` returns the *last* occurrence's value: the
two components resolve duplicates in opposite directions.  (Blank-valued
occurrences are dropped by `parse_qs` but kept by the last-wins dict, which
is what breaks the unrestricted claim.) -/
theorem c9_amended_duplicate_resolution (qs k : Chars)
    (hclean : ∀ tok ∈ splitOnAmp qs, ∀ c ∈ tok, c ≠ '%' ∧ c ≠ '+')
    (hnb : ∀ kv : Chars × Chars, kv ∈ (splitOnAmp qs).filterMap splitFirstEq →
      kv.1 = k → kv.2 ≠ [])
    (hdup : 2 ≤ (rawValues qs k).length) :
    qsGet (parseQs qs) k = some (rawValues qs k) ∧
    (qsGet (parseQs qs) k).map (fun vs => vs.headD []) =
      some ((rawValues qs k).headD []) ∧
    dictGet (parseQueryParameters (String.mk qs)) (String.mk k) =
      ((rawValues qs k).getLast?).map String.mk := by
  have hvals : ((parseQsl qs).filter (fun kv => kv.1 == k)).map Prod.snd =
      rawValues qs k :=
    filterMap_qslStep_values (splitOnAmp qs) k hclean hnb
  have hqs : qsGet (parseQs qs) k = some (rawValues qs k) := by
    unfold parseQs
    rw [qsGet_foldl_addQsEntry]
    rw [show qsGet [] k = none from rfl]
    rw [hvals]
    cases hr : rawValues qs k with
    | nil => rw [hr] at hdup; simp at hdup
    | cons v vs => rfl
  refine ⟨hqs, by rw [hqs]; rfl, ?_⟩
  have hqne : qs ≠ [] := by
    intro he
    subst he
    simp [rawValues, splitOnAmp, splitFirstEq] at hdup
  have hsne : String.mk qs ≠ "" := by
    intro he
    apply hqne
    have : (String.mk qs).data = ("" : String).data := by rw [he]
    simpa using this
  unfold parseQueryParameters
  rw [if_neg hsne]
  rw [show (String.mk qs).toList = qs from rfl]
  rw [parseQueryParameters_fold_last (splitOnAmp qs) [] (String.mk k)]
  have hfiltereq : ((splitOnAmp qs).filterMap splitFirstEq).filter
      (fun kv => String.mk kv.1 == String.mk k) =
      ((splitOnAmp qs).filterMap splitFirstEq).filter (fun kv => kv.1 == k) := by
    apply List.filter_congr
    intro kv _
    simp [String.ext_iff]
  rw [hfiltereq]
  have hraw : rawValues qs k =
      (((splitOnAmp qs).filterMap splitFirstEq).filter (fun kv => kv.1 == k)).map
        Prod.snd := rfl
  rw [hraw, List.getLast?_map]
  cases hlast : (((splitOnAmp qs).filterMap splitFirstEq).filter
      (fun kv => kv.1 == k)).getLast? with
  | none => rfl
  | some kv =>
    have hmem : kv ∈ (splitOnAmp qs).filterMap splitFirstEq :=
      List.mem_of_mem_filter (List.mem_of_mem_getLast? hlast)
    obtain ⟨tok, htok, hsp⟩ := List.mem_filterMap.mp hmem
    have hrec := splitFirstEq_reconstruct tok kv.1 kv.2 hsp
    have hcl : ∀ c ∈ kv.2, c ≠ '%' := by
      intro c hcm
      exact (hclean tok htok c
        (hrec ▸ List.mem_append_right _ (List.mem_cons_of_mem _ hcm))).1
    simp [unquoteChars_id kv.2 hcl]

/-- Witness for C9 amended at a concrete duplicate-key query. -/
theorem c9_amended_duplicate_resolution_witness :
    qsGet (parseQs "a=1&a=2&b=3".toList) "a".toList =
      some ["1".toList, "2".toList] ∧
    dictGet (parseQueryParameters (String.mk "a=1&a=2&b=3".toList))
      (String.mk "a".toList) = some "2" := by
  have h := c9_amended_duplicate_resolution "a=1&a=2&b=3".toList "a".toList
    (by decide) (by decide) (by decide)
  refine ⟨?_, ?_⟩
  · rw [h.1]
    decide
  · rw [h.2.2]
    decide
